import Mathlib

/-!
Verification development for the pr_brainfit biometric analysis pipeline.

The definitions below are a shallow embedding, over `ℚ`, of the core analysis
functions of the repository:

* `src/pr_brainfit/config/settings.py` — activity thresholds and stress
  parameters;
* `src/pr_brainfit/data/processor.py` — `calculate_individual_baselines`;
* `src/pr_brainfit/analysis/activity_analysis.py` — activity classification
  and transition matrices (`pd.crosstab(..., normalize='index')`);
* `src/pr_brainfit/analysis/peak_analysis.py` — `find_recovery_end` and the
  recovery statistics;
* `src/pr_brainfit/analysis/statistical_tests.py` — the per-time-block
  comparison loop of `run_time_comparisons`;
* `src/pr_brainfit/analysis/break_analysis.py` — the break detection state
  machine of `detect_breaks`.

Python floats are modelled as rationals; a pandas `NaN` arising from a
statistic of an empty collection is modelled as `Option.none`.  Timestamps
(`local_time`) are modelled as minute counts.  The SciPy statistical tests
(`kruskal`, `mannwhitneyu`) are numerical library calls; the definitions that
invoke them take the test as an explicit function argument, so every theorem
about the surrounding control flow holds for an arbitrary test.
-/

namespace PRBrainfit

/-- The activity levels of `activity_analysis.py`.  The string `'unknown'` is
assigned when `baselines.get(user_id)` returns no baseline. -/
inductive ActivityLevel
  | sedentary
  | light
  | moderate
  | intense
  | unknown
deriving DecidableEq, Repr

instance : Fintype ActivityLevel :=
  ⟨⟨[ActivityLevel.sedentary, ActivityLevel.light, ActivityLevel.moderate,
      ActivityLevel.intense, ActivityLevel.unknown], by decide⟩,
    fun x => by cases x <;> decide⟩

/-- `ACTIVITY_THRESHOLDS['sedentary']` from `settings.py` (percent). -/
def ACTIVITY_THRESHOLDS_sedentary : ℚ := 20

/-- `ACTIVITY_THRESHOLDS['light']` from `settings.py` (percent). -/
def ACTIVITY_THRESHOLDS_light : ℚ := 40

/-- `ACTIVITY_THRESHOLDS['moderate']` from `settings.py` (percent). -/
def ACTIVITY_THRESHOLDS_moderate : ℚ := 70

/-- The four-way branch of `activity_analysis.py` (lines 30–37 and 90–97),
as a function of the heart-rate-reserve fraction `hr_reserve_used`. -/
def classifyFrac (f : ℚ) : ActivityLevel :=
  if f ≤ ACTIVITY_THRESHOLDS_sedentary / 100 then ActivityLevel.sedentary
  else if f ≤ ACTIVITY_THRESHOLDS_light / 100 then ActivityLevel.light
  else if f ≤ ACTIVITY_THRESHOLDS_moderate / 100 then ActivityLevel.moderate
  else ActivityLevel.intense

/-- `hr_reserve_used = (row['heart_rate'] - resting_hr) / hr_reserve`
(`activity_analysis.py` lines 26 and 88). -/
def hrReserveUsed (restingHr hrReserve heartRate : ℚ) : ℚ :=
  (heartRate - restingHr) / hrReserve

/-- The activity classification applied to one sample with a numeric
baseline: the reserve fraction mapped through the four-way branch. -/
def classify (restingHr hrReserve heartRate : ℚ) : ActivityLevel :=
  classifyFrac (hrReserveUsed restingHr hrReserve heartRate)

/-- Intensity rank of a level, used to state monotonicity of the
classification. -/
def levelRank : ActivityLevel → ℕ
  | ActivityLevel.sedentary => 0
  | ActivityLevel.light => 1
  | ActivityLevel.moderate => 2
  | ActivityLevel.intense => 3
  | ActivityLevel.unknown => 4

/-- Mean of a list of rationals (`Series.mean`); the mean of an empty list is
never taken by the callers below except where noted. -/
def listMean (xs : List ℚ) : ℚ := xs.sum / (xs.length : ℚ)

/-- Insert `x` into `l` before the first element `y` with `le x y`. -/
def insertSorted {α : Type} (le : α → α → Bool) (x : α) : List α → List α
  | [] => [x]
  | y :: ys => if le x y then x :: y :: ys else y :: insertSorted le x ys

/-- Insertion sort by the boolean relation `le`; models the
`DataFrame.sort_values` calls. -/
def sortBy {α : Type} (le : α → α → Bool) : List α → List α
  | [] => []
  | x :: xs => insertSorted le x (sortBy le xs)

/-- `Series.quantile(q)` with pandas' default linear interpolation: position
`h = (n−1)·q` into the sorted values, interpolating between the neighbouring
order statistics.  On an empty series pandas returns `NaN`, modelled as
`none`. -/
def quantileLinear (xs : List ℚ) (q : ℚ) : Option ℚ :=
  match sortBy (fun a b => decide (a ≤ b)) xs with
  | [] => none
  | x :: rest =>
    let sorted := x :: rest
    let n := sorted.length
    let h : ℚ := ((n : ℚ) - 1) * q
    let i : ℕ := (⌊h⌋).toNat
    let lo := sorted.getD i 0
    let hi := sorted.getD (i + 1) lo
    some (lo + (h - (i : ℚ)) * (hi - lo))

/-- One cleaned biometric row as consumed by `calculate_individual_baselines`
(`processor.py` lines 86–111): user id, heart rate, the `is_working_hours`
flag and the (possibly missing) age. -/
structure BRow where
  userId : ℕ
  heartRate : ℚ
  isWorkingHours : Bool
  age : Option ℚ
deriving DecidableEq, Repr

/-- A baseline record as stored in the `baselines` dict: `resting_hr` is the
5th-percentile working-hours heart rate (`NaN`, modelled `none`, when the
user has no working-hours samples), `max_hr` is age-derived, and
`hr_reserve = max_hr − resting_hr` (also `NaN` when `resting_hr` is). -/
structure Baseline where
  restingHr : Option ℚ
  maxHr : ℚ
  hrReserve : Option ℚ
deriving DecidableEq, Repr

/-- `calculate_individual_baselines` (`processor.py` lines 86–111): for every
user occurring in the input, resting heart rate is the 5th percentile
(`STRESS_PARAMS['resting_hr_percentile']/100`) of that user's working-hours
heart rates, `max_hr` is `220 − age` (first row's age) or the fallback 180,
and `hr_reserve = max_hr − resting_hr`. -/
def calculate_individual_baselines (rows : List BRow) : List (ℕ × Baseline) :=
  ((rows.map (fun r => r.userId)).dedup).map (fun u =>
    let userData := rows.filter (fun r => r.userId == u)
    let workingHr :=
      (userData.filter (fun r => r.isWorkingHours)).map (fun r => r.heartRate)
    let resting := quantileLinear workingHr (5 / 100)
    let age : Option ℚ := (userData.head?).bind (fun r => r.age)
    let maxHr : ℚ :=
      match age with
      | some a => 220 - a
      | none => 180
    (u, ⟨resting, maxHr, resting.map (fun r => maxHr - r)⟩))

/-- `baselines.get(row['user_id'])`: association-list lookup.  A user absent
from the table yields `none` (falsy in the Python code). -/
def baselineGet (baselines : List (ℕ × Baseline)) (u : ℕ) : Option Baseline :=
  baselines.lookup u

/-- One row as consumed by the activity/transition analysis: user id,
timestamp (minutes) and heart rate. -/
structure BioRow where
  userId : ℕ
  time : ℕ
  heartRate : ℚ
deriving DecidableEq, Repr

/-- The per-row activity label of `calculate_transition_probabilities`
(`activity_analysis.py` lines 82–99): `'unknown'` when the user has no
baseline entry; otherwise the four-way classification.  A baseline whose
`resting_hr`/`hr_reserve` are `NaN` (a user with zero working-hours samples)
makes `hr_reserve_used` `NaN`, every `<=` comparison `False`, and the label
falls through to `'intense'`. -/
def labelOf (baselines : List (ℕ × Baseline)) (row : BioRow) : ActivityLevel :=
  match baselineGet baselines row.userId with
  | none => ActivityLevel.unknown
  | some b =>
    match b.restingHr, b.hrReserve with
    | some r, some v => classify r v row.heartRate
    | _, _ => ActivityLevel.intense

/-- The per-level tallies of `analyze_activity_distribution`
(`activity_analysis.py` lines 19–40): only rows whose user has a baseline
entry are counted. -/
def activityLevelCounts (baselines : List (ℕ × Baseline)) (rows : List BioRow)
    (lvl : ActivityLevel) : ℕ :=
  ((rows.filter (fun r => (baselineGet baselines r.userId).isSome)).map
    (labelOf baselines)).count lvl

/-- The `sort_values(['user_id', 'local_time'])` key order. -/
def rowLe (a b : BioRow) : Bool :=
  decide (a.userId < b.userId) ||
    (decide (a.userId = b.userId) && decide (a.time ≤ b.time))

/-- `group_data.sort_values(['user_id', 'local_time'])`. -/
def sortRows (rows : List BioRow) : List BioRow := sortBy rowLe rows

/-- `groupby('user_id')['activity_level'].shift(-1)` on a user-sorted frame:
each entry is paired with the next entry of the same user; the last entry of
a user (whose shifted value is `NaN` and is dropped by `dropna`) yields no
pair, and no pair spans two users. -/
def userStatePairs : List (ℕ × ActivityLevel) → List (ActivityLevel × ActivityLevel)
  | [] => []
  | [_] => []
  | (u₁, s₁) :: (u₂, s₂) :: rest =>
      (if u₁ = u₂ then [(s₁, s₂)] else []) ++ userStatePairs ((u₂, s₂) :: rest)

/-- The user-sorted rows tagged with their activity label
(`group_data['activity_level']`). -/
def labeledRows (baselines : List (ℕ × Baseline)) (rows : List BioRow) :
    List (ℕ × ActivityLevel) :=
  (sortRows rows).map (fun r => (r.userId, labelOf baselines r))

/-- The transition pairs that survive the `dropna`/`!= 'unknown'` filters of
`calculate_transition_probabilities` (`activity_analysis.py` lines 101–107). -/
def transitionPairs (baselines : List (ℕ × Baseline)) (rows : List BioRow) :
    List (ActivityLevel × ActivityLevel) :=
  (userStatePairs (labeledRows baselines rows)).filter
    (fun p => !(p.1 == ActivityLevel.unknown) && !(p.2 == ActivityLevel.unknown))

/-- The raw crosstab cell count for source state `s` and next state `t`. -/
def transitionCount (baselines : List (ℕ × Baseline)) (rows : List BioRow)
    (s t : ActivityLevel) : ℕ :=
  ((transitionPairs baselines rows).filter (fun p => p == (s, t))).length

/-- The number of outgoing transitions of source state `s` — the row total
that `pd.crosstab(..., normalize='index')` divides by. -/
def rowTotal (baselines : List (ℕ × Baseline)) (rows : List BioRow)
    (s : ActivityLevel) : ℕ :=
  ((transitionPairs baselines rows).filter (fun p => p.1 == s)).length

/-- The number of incoming transitions of next state `t` — `t` labels a
crosstab column exactly when this is positive. -/
def colTotal (baselines : List (ℕ × Baseline)) (rows : List BioRow)
    (t : ActivityLevel) : ℕ :=
  ((transitionPairs baselines rows).filter (fun p => p.2 == t)).length

/-- One entry of the row-normalized transition matrix
(`pd.crosstab(activity_level, next_activity, normalize='index')`). -/
def transitionProb (baselines : List (ℕ × Baseline)) (rows : List BioRow)
    (s t : ActivityLevel) : ℚ :=
  (transitionCount baselines rows s t : ℚ) / (rowTotal baselines rows s : ℚ)

/-- The four real activity states, in the order of `settings.py`. -/
def observableLevels : List ActivityLevel :=
  [ActivityLevel.sedentary, ActivityLevel.light, ActivityLevel.moderate,
    ActivityLevel.intense]

/-- All five label values, `'unknown'` included. -/
def allLevels : List ActivityLevel :=
  [ActivityLevel.sedentary, ActivityLevel.light, ActivityLevel.moderate,
    ActivityLevel.intense, ActivityLevel.unknown]

/-- The crosstab row index: the states that occur as the source of at least
one counted transition.  A state absent from the data is not in this index. -/
def rowStates (baselines : List (ℕ × Baseline)) (rows : List BioRow) :
    List ActivityLevel :=
  observableLevels.filter (fun s => decide (0 < rowTotal baselines rows s))

/-- The crosstab column index: the states that occur as the target of at
least one counted transition. -/
def colStates (baselines : List (ℕ × Baseline)) (rows : List BioRow) :
    List ActivityLevel :=
  observableLevels.filter (fun t => decide (0 < colTotal baselines rows t))

/-- One (local_time, stress_score) observation of a user's series;
timestamps in minutes. -/
structure StressRow where
  time : ℚ
  stress : ℚ
deriving DecidableEq, Repr

/-- The recovery threshold of `find_recovery_end` (`peak_analysis.py`
lines 49–50): `baseline + (peak_value − baseline) * 0.2`, where `baseline`
is the mean of `data` — the slice of the user's series FROM THE PEAK ROW ON
(`user_data.iloc[peak:]` at line 30), not a pre-peak baseline. -/
def recoveryThreshold (data : List StressRow) (peakValue : ℚ) : ℚ :=
  listMean (data.map (fun r => r.stress))
    + (peakValue - listMean (data.map (fun r => r.stress))) * (2 / 10)

/-- `find_recovery_end` (`peak_analysis.py` lines 47–55): the time of the
first row of `data` whose stress is at or below the threshold; `None` when
no row qualifies. -/
def find_recovery_end (data : List StressRow) (peakValue : ℚ) : Option ℚ :=
  match data.filter
      (fun r => decide (r.stress ≤ recoveryThreshold data peakValue)) with
  | [] => none
  | r :: _ => some r.time

/-- Modelled from the spec: the recovery rule as the specification words
it — the threshold is computed from the mean of the PRE-peak rows and the
search runs over the rows strictly after the peak.  Stated only for
comparison with `find_recovery_end`. -/
def findRecoveryEndSpec (pre : List StressRow) (peakValue : ℚ)
    (later : List StressRow) : Option ℚ :=
  match later.filter
      (fun r => decide (r.stress ≤ listMean (pre.map (fun q => q.stress))
        + (peakValue - listMean (pre.map (fun q => q.stress))) * (2 / 10))) with
  | [] => none
  | r :: _ => some r.time

/-- `peaks_df.dropna(subset=['recovery_time'])` in
`calculate_recovery_metrics` (`peak_analysis.py` line 85): the recovery
statistics run over the non-null recovery times only. -/
def validRecoveries (recoveries : List (Option ℚ)) : List ℚ :=
  recoveries.filterMap id

/-- One row as consumed by `run_time_comparisons`: group code, calendar
date, 15-minute time block code and stress score. -/
structure StatRow where
  group : ℕ
  date : ℕ
  timeBlock : ℕ
  stress : ℚ
deriving DecidableEq, Repr

/-- One entry of the `results` arrays of `run_time_comparisons`
(`statistical_tests.py` lines 19–27, 57–78); `none` models the `np.nan`
appended for a block with insufficient data. -/
structure BlockResult where
  timeBlock : ℕ
  hStatistic : Option ℚ
  pValue : Option ℚ
  effectSize : Option ℚ
deriving DecidableEq, Repr

/-- `sorted(df['time_block'].unique())` (line 38). -/
def uniqueBlocks (rows : List StatRow) : List ℕ :=
  sortBy (fun a b => decide (a ≤ b)) ((rows.map (fun r => r.timeBlock)).dedup)

/-- `df['standardized_group'].unique()` (line 30). -/
def groupsOf (rows : List StatRow) : List ℕ :=
  (rows.map (fun r => r.group)).dedup

/-- The rows of one group within one time block (lines 39 and 46). -/
def blockGroupRows (rows : List StatRow) (b g : ℕ) : List StatRow :=
  rows.filter (fun r => r.timeBlock == b && r.group == g)

/-- `len(group_data['date'].unique())` (line 48) — distinct days of data a
group has in a block. -/
def sampleDays (rows : List StatRow) (b g : ℕ) : ℕ :=
  ((blockGroupRows rows b g).map (fun r => r.date)).dedup.length

/-- `sufficient_data` for one block (lines 42–52): every group of the frame
has at least `min_samples = 5` distinct days. -/
def sufficientData (rows : List StatRow) (b : ℕ) : Bool :=
  (groupsOf rows).all (fun g => decide (5 ≤ sampleDays rows b g))

/-- The result appended for one block (lines 57–78), parametric in the
Kruskal–Wallis test (`scipy.stats.kruskal`, returning the `(H, p)` pair):
an insufficient block is appended with NaN statistic, p-value and effect
size; otherwise the test runs and the epsilon-squared effect size
`(H − k + 1)/(n − k)` is attached. -/
def blockResultFor (kruskal : List (List ℚ) → ℚ × ℚ) (rows : List StatRow)
    (b : ℕ) : BlockResult :=
  if sufficientData rows b then
    (fun groupsData =>
      ⟨b, some (kruskal groupsData).1, some (kruskal groupsData).2,
        some (((kruskal groupsData).1 - (groupsData.length : ℚ) + 1)
          / (((groupsData.map (fun gd => gd.length)).sum : ℚ)
            - (groupsData.length : ℚ)))⟩)
      ((groupsOf rows).map (fun g => (blockGroupRows rows b g).map (fun r => r.stress)))
  else ⟨b, none, none, none⟩

/-- The per-block loop of `run_time_comparisons` (`statistical_tests.py`
lines 38–78): one result entry per sorted unique time block. -/
def run_time_comparisons (kruskal : List (List ℚ) → ℚ × ℚ)
    (rows : List StatRow) : List BlockResult :=
  (uniqueBlocks rows).map (blockResultFor kruskal rows)

/-- `block_data[block_data['standardized_group'] == g]['stress_score']`
(lines 89–90). -/
def groupStress (blockRows : List StatRow) (g : ℕ) : List ℚ :=
  (blockRows.filter (fun r => r.group == g)).map (fun r => r.stress)

/-- All index pairs `i < j` of the groups array, in the order of the nested
loops at lines 87–88. -/
def upairs {α : Type} : List α → List (α × α)
  | [] => []
  | x :: xs => xs.map (fun y => (x, y)) ++ upairs xs

/-- The p-value of the pairwise test for a group pair, parametric in the
test function (`scipy.stats.mannwhitneyu`, returning `(U, p)`). -/
def pairPValue (mw : List ℚ → List ℚ → ℚ × ℚ) (blockRows : List StatRow)
    (p : ℕ × ℕ) : ℚ :=
  (mw (groupStress blockRows p.1) (groupStress blockRows p.2)).2

/-- The post-hoc loop of `run_time_comparisons` (lines 85–102), with the
significance threshold a parameter: when the omnibus p-value is below 0.05,
report the pairs whose groups both have at least `min_samples = 5` raw
samples and whose pairwise p-value is below the threshold. -/
def significantDiffs (mw : List ℚ → List ℚ → ℚ × ℚ)
    (blockRows : List StatRow) (groups : List ℕ) (omnibusP : ℚ) (thr : ℚ) :
    List (ℕ × ℕ) :=
  if omnibusP < 5 / 100 then
    (upairs groups).filter (fun p =>
      decide (5 ≤ (groupStress blockRows p.1).length) &&
      decide (5 ≤ (groupStress blockRows p.2).length) &&
      decide (pairPValue mw blockRows p < thr))
  else []

/-- The Bonferroni-corrected threshold `0.05 / (k·(k−1)/2)` of line 96. -/
def bonferroniThreshold (k : ℕ) : ℚ :=
  (5 / 100) / ((k : ℚ) * ((k : ℚ) - 1) / 2)

/-- One row of the smoothed break-detection series: timestamp (minutes) and
`stress_drop`, the first difference of the smoothed stress; `none` models
the `NaN` first difference of a user's first row, whose `<`/`>` comparisons
are all `False`. -/
structure TRow where
  time : ℚ
  drop : Option ℚ
deriving DecidableEq, Repr

/-- `row['stress_drop'] < -stress_drop` — the break-opening test
(`break_analysis.py` line 31). -/
def dropsBelow (stressDrop : ℚ) : Option ℚ → Bool
  | none => false
  | some d => decide (d < -stressDrop)

/-- `row['stress_drop'] > stress_drop` — the break-closing test (line 34). -/
def risesAbove (stressDrop : ℚ) : Option ℚ → Bool
  | none => false
  | some d => decide (stressDrop < d)

/-- A detected break event (`break_analysis.py` lines 37–46). -/
structure BreakEvent where
  startTime : ℚ
  endTime : ℚ
  duration : ℚ
  stressReduction : ℚ
deriving DecidableEq, Repr

/-- The mean stress over the user's rows between the break start and end
times (lines 42–45). -/
def meanStressBetween (allRows : List StressRow) (a b : ℚ) : ℚ :=
  listMean ((allRows.filter
    (fun r => decide (a ≤ r.time) && decide (r.time ≤ b))).map
      (fun r => r.stress))

/-- The state update of the loop at lines 30–47: `none` when `in_break` is
false, `some s` when a break opened at time `s`.  A row that neither opens
nor closes leaves the state (and the remembered start) unchanged. -/
def breakStepState (stressDrop : ℚ) (st : Option ℚ) (r : TRow) : Option ℚ :=
  match st with
  | none => if dropsBelow stressDrop r.drop then some r.time else none
  | some s => if risesAbove stressDrop r.drop then none else some s

/-- The events emitted by one loop iteration: only a closing row emits, and
only when the segment's wall-clock duration reaches `threshold_duration`
(lines 34–47). -/
def breakStepOut (stressDrop thresholdDuration : ℚ) (allRows : List StressRow)
    (st : Option ℚ) (r : TRow) : List BreakEvent :=
  match st with
  | none => []
  | some s =>
    if risesAbove stressDrop r.drop then
      if thresholdDuration ≤ r.time - s then
        [⟨s, r.time, r.time - s, meanStressBetween allRows s r.time⟩]
      else []
    else []

/-- The break-detection loop (`break_analysis.py` lines 27–47) over the
smoothed-difference rows. -/
def detectAux (stressDrop thresholdDuration : ℚ) (allRows : List StressRow)
    (st : Option ℚ) : List TRow → List BreakEvent
  | [] => []
  | r :: rs =>
      breakStepOut stressDrop thresholdDuration allRows st r
        ++ detectAux stressDrop thresholdDuration allRows
            (breakStepState stressDrop st r) rs

/-- The loop state after consuming a list of rows. -/
def runBreakState (stressDrop : ℚ) (st : Option ℚ) (l : List TRow) : Option ℚ :=
  l.foldl (breakStepState stressDrop) st

/-- `rolling(window=5, min_periods=1).mean()` (lines 19–21): the trailing
5-sample moving average. -/
def rollingMean5 (xs : List ℚ) : List ℚ :=
  (List.range xs.length).map (fun i => listMean ((xs.take (i + 1)).drop (i + 1 - 5)))

/-- `smooth_stress.diff()` (line 24): `NaN` (`none`) for the first row,
consecutive differences afterwards. -/
def diffSeries : List ℚ → List (Option ℚ)
  | [] => []
  | y :: rest => none :: List.zipWith (fun a b => some (b - a)) (y :: rest) rest

/-- The (time, stress_drop) rows fed to the loop, built from a user's
time-sorted (time, stress) series. -/
def mkTRows (rows : List StressRow) : List TRow :=
  List.zipWith (fun (r : StressRow) d => TRow.mk r.time d) rows
    (diffSeries (rollingMean5 (rows.map (fun r => r.stress))))

/-- `detect_breaks` for one user (`break_analysis.py` lines 15–47): sort by
time, smooth, difference, and run the loop from the not-in-break state. -/
def detect_breaks_user (stressDrop thresholdDuration : ℚ)
    (rows : List StressRow) : List BreakEvent :=
  detectAux stressDrop thresholdDuration
    (sortBy (fun a b => decide (a.time ≤ b.time)) rows) none
    (mkTRows (sortBy (fun a b => decide (a.time ≤ b.time)) rows))

/-- The post-peak slice of a concrete stress series: the peak row (time 2,
stress 100) and the three rows after it. -/
def exPeakSeries : List StressRow := [⟨2, 100⟩, ⟨3, 30⟩, ⟨4, 30⟩, ⟨5, 15⟩]

/-- The pre-peak rows of the same concrete series. -/
def exBeforePeak : List StressRow := [⟨0, 0⟩, ⟨1, 0⟩]

/-- The rows strictly after the peak of the same concrete series. -/
def exAfterPeak : List StressRow := [⟨3, 30⟩, ⟨4, 30⟩, ⟨5, 15⟩]

/-- A concrete comparison frame: two groups (0 and 1) in time block 0, each
with a single day of data — below the 5-day minimum. -/
def exStatRows : List StatRow := [⟨0, 0, 0, 50⟩, ⟨1, 0, 0, 60⟩]

/-- A concrete single-block frame: groups 0 and 1 with five samples each on
five distinct days. -/
def exStatRows9 : List StatRow :=
  [⟨0, 0, 0, 10⟩, ⟨0, 1, 0, 10⟩, ⟨0, 2, 0, 10⟩, ⟨0, 3, 0, 10⟩, ⟨0, 4, 0, 10⟩,
   ⟨1, 0, 0, 90⟩, ⟨1, 1, 0, 90⟩, ⟨1, 2, 0, 90⟩, ⟨1, 3, 0, 90⟩, ⟨1, 4, 0, 90⟩]

/-- A concrete one-user baseline table: `resting_hr = 60`, `max_hr = 180`,
`hr_reserve = 120`. -/
def exBaselines : List (ℕ × Baseline) := [(1, ⟨some 60, 180, some 120⟩)]

/-- Concrete samples for user 1: heart rates 70 (sedentary), 110 (moderate),
70 (sedentary). -/
def exRowsC4 : List BioRow := [⟨1, 0, 70⟩, ⟨1, 1, 110⟩, ⟨1, 2, 70⟩]

/-- Concrete samples for user 1: heart rates 70 (sedentary), 100 (light),
100 (light) — `moderate` and `intense` never occur. -/
def exRowsC6 : List BioRow := [⟨1, 0, 70⟩, ⟨1, 1, 100⟩, ⟨1, 2, 100⟩]

end PRBrainfit

namespace PRBrainfit

theorem classifyFrac_monotone {f₁ f₂ : ℚ} (h : f₁ ≤ f₂) :
    levelRank (classifyFrac f₁) ≤ levelRank (classifyFrac f₂) := by
  unfold classifyFrac ACTIVITY_THRESHOLDS_sedentary ACTIVITY_THRESHOLDS_light
    ACTIVITY_THRESHOLDS_moderate
  split_ifs <;> simp [levelRank] <;> linarith

/-- C1: for a baseline with positive heart-rate reserve, the activity
classification is a pure function of the reserve fraction
`f = (heart_rate − resting_hr) / hr_reserve`; it is the four-cutoff step
function (`f ≤ 0.20 → sedentary`, `0.20 < f ≤ 0.40 → light`,
`0.40 < f ≤ 0.70 → moderate`, `0.70 < f → intense`), and it is monotone in
the heart rate (hence in `f`). -/
theorem activity_classification_step_function
    (restingHr hrReserve : ℚ) (hres : 0 < hrReserve) :
    (∀ heartRate, classify restingHr hrReserve heartRate
        = classifyFrac ((heartRate - restingHr) / hrReserve)) ∧
    (∀ f : ℚ,
      (f ≤ 20 / 100 → classifyFrac f = ActivityLevel.sedentary) ∧
      (20 / 100 < f → f ≤ 40 / 100 → classifyFrac f = ActivityLevel.light) ∧
      (40 / 100 < f → f ≤ 70 / 100 → classifyFrac f = ActivityLevel.moderate) ∧
      (70 / 100 < f → classifyFrac f = ActivityLevel.intense)) ∧
    (∀ h₁ h₂ : ℚ, h₁ ≤ h₂ →
      levelRank (classify restingHr hrReserve h₁)
        ≤ levelRank (classify restingHr hrReserve h₂)) := by
  refine ⟨fun heartRate => rfl, ?_, ?_⟩
  · intro f
    unfold classifyFrac ACTIVITY_THRESHOLDS_sedentary ACTIVITY_THRESHOLDS_light
      ACTIVITY_THRESHOLDS_moderate
    refine ⟨fun h => ?_, fun h h₂ => ?_, fun h h₂ => ?_, fun h => ?_⟩ <;>
      split_ifs <;> first | rfl | linarith
  · intro h₁ h₂ hle
    apply classifyFrac_monotone
    unfold hrReserveUsed
    exact div_le_div_of_nonneg_right (by linarith) hres.le

/-- Witness for C1 at the baseline `resting_hr = 60`, `hr_reserve = 100`:
heart rate 75 gives `f = 0.15 → sedentary`, and raising the heart rate from
75 to 145 (`f = 0.85 → intense`) does not lower the rank. -/
theorem activity_classification_step_function_witness :
    classify 60 100 75 = ActivityLevel.sedentary ∧
    classify 60 100 145 = ActivityLevel.intense ∧
    levelRank (classify 60 100 75) ≤ levelRank (classify 60 100 145) := by
  have h := activity_classification_step_function 60 100 (by norm_num)
  have h75 : classify 60 100 75 = ActivityLevel.sedentary := by
    rw [h.1 75]
    exact ((h.2.1 ((75 - 60) / 100)).1 (by norm_num))
  have h145 : classify 60 100 145 = ActivityLevel.intense := by
    rw [h.1 145]
    exact ((h.2.1 ((145 - 60) / 100)).2.2.2 (by norm_num))
  exact ⟨h75, h145, h.2.2 75 145 (by norm_num)⟩

/-- C2 counterexample: with the degenerate baseline `resting_hr = 100`,
`hr_reserve = −10`, the classifier does not raise any error — it silently
divides by the negative reserve and produces the inverted mapping: a heart
rate 10 below resting classifies as `intense`, while one 20 above resting
classifies as `sedentary`. -/
theorem degenerate_reserve_silently_divides :
    classify 100 (-10) 90 = ActivityLevel.intense ∧
    classify 100 (-10) 120 = ActivityLevel.sedentary := by
  constructor <;>
    · unfold classify classifyFrac hrReserveUsed ACTIVITY_THRESHOLDS_sedentary
        ACTIVITY_THRESHOLDS_light ACTIVITY_THRESHOLDS_moderate
      norm_num

/-- C2 amended: for `hr_reserve < 0` the classifier silently divides by the
reserve and the mapping is inverted — classification rank is antitone in the
heart rate.  No domain error is raised anywhere in
`analyze_activity_distribution`. -/
theorem degenerate_reserve_inverts_mapping
    (restingHr hrReserve : ℚ) (hres : hrReserve < 0) :
    ∀ h₁ h₂ : ℚ, h₁ ≤ h₂ →
      levelRank (classify restingHr hrReserve h₂)
        ≤ levelRank (classify restingHr hrReserve h₁) := by
  intro h₁ h₂ hle
  apply classifyFrac_monotone
  unfold hrReserveUsed
  exact div_le_div_of_nonpos_of_le hres.le (by linarith)

/-- Witness for the amended C2 at `resting_hr = 100`, `hr_reserve = −10`:
raising the heart rate from 90 to 120 does not raise the rank. -/
theorem degenerate_reserve_inverts_mapping_witness :
    levelRank (classify 100 (-10) 120) ≤ levelRank (classify 100 (-10) 90) :=
  degenerate_reserve_inverts_mapping 100 (-10) (by norm_num) 90 120 (by norm_num)

theorem sum_map_add {α : Type} (f g : α → ℕ) (l : List α) :
    (l.map (fun x => f x + g x)).sum = (l.map f).sum + (l.map g).sum := by
  induction l with
  | nil => simp
  | cons x l ih => simp [ih]; omega

theorem indicator_sum (s : ActivityLevel) (p : ActivityLevel × ActivityLevel) :
    (allLevels.map (fun t => if p == (s, t) then 1 else 0)).sum
      = (if p.1 == s then 1 else 0 : ℕ) := by
  rcases p with ⟨a, b⟩
  revert a b s
  decide

theorem count_partition (l : List (ActivityLevel × ActivityLevel))
    (s : ActivityLevel) :
    (l.filter (fun p => p.1 == s)).length
      = (allLevels.map (fun t => (l.filter (fun p => p == (s, t))).length)).sum := by
  induction l with
  | nil => simp
  | cons p l ih =>
    have hsplit : ∀ t : ActivityLevel,
        ((p :: l).filter (fun q => q == (s, t))).length
          = (if p == (s, t) then 1 else 0)
            + (l.filter (fun q => q == (s, t))).length := by
      intro t
      rw [List.filter_cons]
      split
      all_goals simp [Nat.add_comm]
    have hmap : (allLevels.map
          (fun t => ((p :: l).filter (fun q => q == (s, t))).length)).sum
        = (allLevels.map (fun t => if p == (s, t) then 1 else 0)).sum
          + (allLevels.map
              (fun t => (l.filter (fun q => q == (s, t))).length)).sum := by
      calc (allLevels.map
              (fun t => ((p :: l).filter (fun q => q == (s, t))).length)).sum
          = (allLevels.map (fun t => (if p == (s, t) then 1 else 0)
              + (l.filter (fun q => q == (s, t))).length)).sum := by
            apply congrArg
            exact List.map_congr_left (fun t _ => hsplit t)
        _ = _ := sum_map_add _ _ _
    rw [hmap, indicator_sum, List.filter_cons]
    split
    all_goals simp_all
    all_goals omega

theorem cast_sum_map {α : Type} (f : α → ℕ) (l : List α) :
    (((l.map f).sum : ℕ) : ℚ) = (l.map (fun x => (f x : ℚ))).sum := by
  induction l with
  | nil => simp
  | cons x l ih => simp [ih]

theorem sum_map_div {α : Type} (f : α → ℚ) (c : ℚ) (l : List α) :
    (l.map (fun x => f x / c)).sum = (l.map f).sum / c := by
  induction l with
  | nil => simp
  | cons x l ih => simp [ih, add_div]

theorem transition_row_sum (baselines : List (ℕ × Baseline))
    (rows : List BioRow) (s : ActivityLevel)
    (h : 0 < rowTotal baselines rows s) :
    (allLevels.map (fun t => transitionProb baselines rows s t)).sum = 1 := by
  have hT : ((rowTotal baselines rows s : ℕ) : ℚ) ≠ 0 :=
    Nat.cast_ne_zero.mpr (Nat.pos_iff_ne_zero.mp h)
  unfold transitionProb
  rw [sum_map_div (fun t => (transitionCount baselines rows s t : ℚ)), ← cast_sum_map]
  have hpart := count_partition (transitionPairs baselines rows) s
  unfold transitionCount rowTotal at *
  rw [← hpart]
  exact div_self hT

theorem mem_insertSorted {α : Type} (le : α → α → Bool) (x z : α) (l : List α) :
    z ∈ insertSorted le x l ↔ z = x ∨ z ∈ l := by
  induction l with
  | nil => simp [insertSorted]
  | cons y ys ih =>
    by_cases h : le x y
    · simp [insertSorted, h]
    · simp [insertSorted, h, ih]
      tauto

theorem pairwise_insertSorted {α : Type} (le : α → α → Bool)
    (htrans : ∀ a b c, le a b = true → le b c = true → le a c = true)
    (htot : ∀ a b, le a b = true ∨ le b a = true)
    (x : α) (l : List α) (hl : l.Pairwise (fun a b => le a b = true)) :
    (insertSorted le x l).Pairwise (fun a b => le a b = true) := by
  induction l with
  | nil => simp [insertSorted]
  | cons y ys ih =>
    rcases List.pairwise_cons.mp hl with ⟨hy, hys⟩
    by_cases h : le x y = true
    · have hall : ∀ z ∈ y :: ys, le x z = true := by
        intro z hz
        rcases List.mem_cons.mp hz with hz | hz
        · exact hz ▸ h
        · exact htrans x y z h (hy z hz)
      simp only [insertSorted, h, if_pos]
      exact List.pairwise_cons.mpr ⟨hall, hl⟩
    · have hyx : le y x = true := (htot x y).resolve_left h
      have hcons : insertSorted le x (y :: ys) = y :: insertSorted le x ys := by
        simp [insertSorted, h]
      rw [hcons]
      refine List.pairwise_cons.mpr ⟨?_, ih hys⟩
      intro z hz
      rcases (mem_insertSorted le x z ys).mp hz with hz | hz
      · exact hz ▸ hyx
      · exact hy z hz

theorem sortBy_pairwise {α : Type} (le : α → α → Bool)
    (htrans : ∀ a b c, le a b = true → le b c = true → le a c = true)
    (htot : ∀ a b, le a b = true ∨ le b a = true) (l : List α) :
    (sortBy le l).Pairwise (fun a b => le a b = true) := by
  induction l with
  | nil => simp [sortBy]
  | cons x xs ih => exact pairwise_insertSorted le htrans htot x (sortBy le xs) ih

theorem rowLe_trans (a b c : BioRow)
    (hab : rowLe a b = true) (hbc : rowLe b c = true) : rowLe a c = true := by
  simp only [rowLe, Bool.or_eq_true, Bool.and_eq_true, decide_eq_true_eq] at *
  omega

theorem rowLe_total (a b : BioRow) : rowLe a b = true ∨ rowLe b a = true := by
  simp only [rowLe, Bool.or_eq_true, Bool.and_eq_true, decide_eq_true_eq]
  omega

theorem userStatePairs_mem (l : List (ℕ × ActivityLevel))
    (p : ActivityLevel × ActivityLevel) :
    p ∈ userStatePairs l →
      ∃ (i : ℕ) (h₁ : i < l.length) (h₂ : i + 1 < l.length),
        (l.get ⟨i, h₁⟩).1 = (l.get ⟨i + 1, h₂⟩).1 ∧
        p = ((l.get ⟨i, h₁⟩).2, (l.get ⟨i + 1, h₂⟩).2) := by
  induction l with
  | nil => intro hp; simp [userStatePairs] at hp
  | cons a tail ih =>
    intro hp
    cases tail with
    | nil => simp [userStatePairs] at hp
    | cons b rest =>
      rcases a with ⟨ua, sa⟩
      rcases b with ⟨ub, sb⟩
      simp only [userStatePairs] at hp
      rcases List.mem_append.mp hp with h | h
      · by_cases hab : ua = ub
        · rw [if_pos hab] at h
          simp only [List.mem_singleton] at h
          exact ⟨0, by simp, by simp, by simpa using hab, by simpa using h⟩
        · rw [if_neg hab] at h
          simp at h
      · obtain ⟨i, h₁, h₂, heq, hp'⟩ := ih h
        exact ⟨i + 1, by simpa using Nat.succ_lt_succ h₁,
          by simpa using Nat.succ_lt_succ h₂, by simpa using heq,
          by simpa using hp'⟩

/-- C4: the transition construction sorts the group's samples by
(user, time); every counted pair is drawn from two consecutive entries of
that sorted, labelled list belonging to the same user (no pair spans two
users); pairs involving an `'unknown'` state are dropped; and every row of
the normalized matrix with at least one outgoing transition sums to 1
within 1e-9. -/
theorem transition_matrix_construction (baselines : List (ℕ × Baseline))
    (rows : List BioRow) :
    ((sortRows rows).Pairwise (fun a b => rowLe a b = true)) ∧
    (∀ p ∈ transitionPairs baselines rows,
      p.1 ≠ ActivityLevel.unknown ∧ p.2 ≠ ActivityLevel.unknown) ∧
    (∀ p ∈ transitionPairs baselines rows,
      ∃ (i : ℕ) (h₁ : i < (labeledRows baselines rows).length)
        (h₂ : i + 1 < (labeledRows baselines rows).length),
        ((labeledRows baselines rows).get ⟨i, h₁⟩).1
          = ((labeledRows baselines rows).get ⟨i + 1, h₂⟩).1 ∧
        p = (((labeledRows baselines rows).get ⟨i, h₁⟩).2,
          ((labeledRows baselines rows).get ⟨i + 1, h₂⟩).2)) ∧
    (∀ s, 0 < rowTotal baselines rows s →
      |(allLevels.map (fun t => transitionProb baselines rows s t)).sum - 1|
        ≤ 1 / 1000000000) := by
  refine ⟨sortBy_pairwise rowLe rowLe_trans rowLe_total rows, ?_, ?_, ?_⟩
  · intro p hp
    have := (List.mem_filter.mp hp).2
    simp only [Bool.and_eq_true, Bool.not_eq_eq_eq_not, Bool.not_true,
      beq_eq_false_iff_ne, ne_eq] at this
    exact this
  · intro p hp
    exact userStatePairs_mem _ p (List.mem_filter.mp hp).1
  · intro s hs
    rw [transition_row_sum baselines rows s hs]
    norm_num

theorem exPairsC4_eq : transitionPairs exBaselines exRowsC4
    = [(ActivityLevel.sedentary, ActivityLevel.moderate),
       (ActivityLevel.moderate, ActivityLevel.sedentary)] := by
  norm_num [transitionPairs, labeledRows, sortRows, sortBy, insertSorted,
    rowLe, userStatePairs, labelOf, baselineGet, exBaselines, exRowsC4,
    classify, classifyFrac, hrReserveUsed, ACTIVITY_THRESHOLDS_sedentary,
    ACTIVITY_THRESHOLDS_light, ACTIVITY_THRESHOLDS_moderate, List.lookup,
    List.filter]
  decide

theorem exPairsC6_eq : transitionPairs exBaselines exRowsC6
    = [(ActivityLevel.sedentary, ActivityLevel.light),
       (ActivityLevel.light, ActivityLevel.light)] := by
  norm_num [transitionPairs, labeledRows, sortRows, sortBy, insertSorted,
    rowLe, userStatePairs, labelOf, baselineGet, exBaselines, exRowsC6,
    classify, classifyFrac, hrReserveUsed, ACTIVITY_THRESHOLDS_sedentary,
    ACTIVITY_THRESHOLDS_light, ACTIVITY_THRESHOLDS_moderate, List.lookup,
    List.filter]
  decide

/-- Witness for C4 on a concrete group (one user, states sedentary →
moderate → sedentary): the pair (sedentary, moderate) is counted and is
unknown-free, and the sedentary row of the normalized matrix sums to 1
within 1e-9. -/
theorem transition_matrix_construction_witness :
    (ActivityLevel.sedentary, ActivityLevel.moderate)
        ∈ transitionPairs exBaselines exRowsC4 ∧
    (ActivityLevel.sedentary, ActivityLevel.moderate).1 ≠ ActivityLevel.unknown ∧
    0 < rowTotal exBaselines exRowsC4 ActivityLevel.sedentary ∧
    |(allLevels.map
        (fun t => transitionProb exBaselines exRowsC4 ActivityLevel.sedentary t)).sum
      - 1| ≤ 1 / 1000000000 := by
  have hmem : (ActivityLevel.sedentary, ActivityLevel.moderate)
      ∈ transitionPairs exBaselines exRowsC4 := by
    rw [exPairsC4_eq]; decide
  have hrt : rowTotal exBaselines exRowsC4 ActivityLevel.sedentary = 1 := by
    simp only [rowTotal, exPairsC4_eq]; decide
  have h := transition_matrix_construction exBaselines exRowsC4
  exact ⟨hmem, (h.2.1 _ hmem).1, by rw [hrt]; norm_num,
    h.2.2.2 ActivityLevel.sedentary (by rw [hrt]; norm_num)⟩

theorem lookup_map_eq_none {β : Type} (f : ℕ → β) (keys : List ℕ) (u : ℕ)
    (h : u ∉ keys) : (keys.map (fun k => (k, f k))).lookup u = none := by
  induction keys with
  | nil => rfl
  | cons k ks ih =>
    have hne : u ≠ k := fun e => h (e ▸ List.mem_cons_self k ks)
    have hbeq : (u == k) = false := beq_eq_false_iff_ne.mpr hne
    simp only [List.map_cons, List.lookup, hbeq]
    exact ih (fun hm => h (List.mem_cons_of_mem k hm))

theorem filter_isSome_erase_user (bl : List (ℕ × Baseline)) (u : ℕ)
    (hnone : baselineGet bl u = none) (arows : List BioRow) :
    arows.filter (fun r => (baselineGet bl r.userId).isSome)
      = (arows.filter (fun r => !(r.userId == u))).filter
          (fun r => (baselineGet bl r.userId).isSome) := by
  induction arows with
  | nil => rfl
  | cons r t ih =>
    by_cases hru : r.userId = u
    · have h1 : (baselineGet bl r.userId).isSome = false := by
        rw [hru, hnone]; rfl
      have h2 : (!(r.userId == u)) = false := by simp [hru]
      simp [List.filter_cons, h1, h2, ih]
    · have h2 : (!(r.userId == u)) = true := by simp [hru]
      simp [List.filter_cons, h2, ih]

/-- C3 counterexample: a user whose only sample is outside working hours is
NOT absent from the baseline table — `calculate_individual_baselines`
produces a record for them whose `resting_hr` and `hr_reserve` are `NaN`
(the pandas quantile of an empty series), and the lookup that downstream
analysis guards on is truthy. -/
theorem zero_working_hours_user_gets_nan_baseline :
    baselineGet (calculate_individual_baselines [⟨1, 80, false, none⟩]) 1
        = some ⟨none, 180, none⟩ ∧
    baselineGet (calculate_individual_baselines [⟨1, 80, false, none⟩]) 1
        ≠ none := by
  have h : baselineGet (calculate_individual_baselines [⟨1, 80, false, none⟩]) 1
      = some ⟨none, 180, none⟩ := rfl
  exact ⟨h, by rw [h]; simp⟩

/-- C3 amended: a user with no rows at all in the estimator's input is
absent from the baseline table, and a user absent from the table is
excluded downstream — their samples contribute nothing to the activity
tallies and are labelled `'unknown'` in the transition construction.  (A
user present in the input with zero working-hours samples instead receives
a NaN baseline record; see the counterexample.) -/
theorem missing_baseline_excludes_user (rows : List BRow)
    (bl : List (ℕ × Baseline)) (arows : List BioRow) (u : ℕ) :
    (u ∉ rows.map (fun r => r.userId) →
      baselineGet (calculate_individual_baselines rows) u = none) ∧
    (baselineGet bl u = none → ∀ lvl,
      activityLevelCounts bl arows lvl
        = activityLevelCounts bl (arows.filter (fun r => !(r.userId == u))) lvl) ∧
    (baselineGet bl u = none → ∀ row : BioRow, row.userId = u →
      labelOf bl row = ActivityLevel.unknown) := by
  refine ⟨?_, ?_, ?_⟩
  · intro hu
    unfold baselineGet calculate_individual_baselines
    apply lookup_map_eq_none
    intro hmem
    exact hu (List.mem_dedup.mp hmem)
  · intro hnone lvl
    unfold activityLevelCounts
    rw [filter_isSome_erase_user bl u hnone arows]
  · intro hnone row hrow
    unfold labelOf
    rw [hrow, hnone]

/-- Witness for the amended C3: user 2 has no rows in the input, so the
baseline lookup yields `none`, user 2's samples are labelled `'unknown'`,
and removing user 2's rows leaves every activity tally unchanged. -/
theorem missing_baseline_excludes_user_witness :
    baselineGet (calculate_individual_baselines [⟨1, 80, true, none⟩]) 2
        = none ∧
    labelOf (calculate_individual_baselines [⟨1, 80, true, none⟩]) ⟨2, 0, 90⟩
        = ActivityLevel.unknown ∧
    activityLevelCounts (calculate_individual_baselines [⟨1, 80, true, none⟩])
        [⟨2, 0, 90⟩] ActivityLevel.intense
      = activityLevelCounts (calculate_individual_baselines [⟨1, 80, true, none⟩])
          (([⟨2, 0, 90⟩] : List BioRow).filter (fun r => !(r.userId == 2)))
          ActivityLevel.intense := by
  have h := missing_baseline_excludes_user [⟨1, 80, true, none⟩]
    (calculate_individual_baselines [⟨1, 80, true, none⟩]) [⟨2, 0, 90⟩] 2
  have ha : baselineGet (calculate_individual_baselines [⟨1, 80, true, none⟩]) 2
      = none := h.1 (by decide)
  exact ⟨ha, h.2.2 ha ⟨2, 0, 90⟩ rfl, h.2.1 ha ActivityLevel.intense⟩

theorem rowTotal_pos_ne_unknown (baselines : List (ℕ × Baseline))
    (rows : List BioRow) (s : ActivityLevel)
    (h : 0 < rowTotal baselines rows s) : s ≠ ActivityLevel.unknown := by
  unfold rowTotal at h
  obtain ⟨p, hp⟩ := List.exists_mem_of_ne_nil _ (List.length_pos.mp h)
  have h1 := List.mem_filter.mp hp
  have hs : p.1 = s := by simpa using h1.2
  have h2 := (List.mem_filter.mp h1.1).2
  simp only [Bool.and_eq_true, Bool.not_eq_eq_eq_not, Bool.not_true,
    beq_eq_false_iff_ne, ne_eq] at h2
  exact hs ▸ h2.1

theorem colTotal_pos_ne_unknown (baselines : List (ℕ × Baseline))
    (rows : List BioRow) (t : ActivityLevel)
    (h : 0 < colTotal baselines rows t) : t ≠ ActivityLevel.unknown := by
  unfold colTotal at h
  obtain ⟨p, hp⟩ := List.exists_mem_of_ne_nil _ (List.length_pos.mp h)
  have h1 := List.mem_filter.mp hp
  have hs : p.2 = t := by simpa using h1.2
  have h2 := (List.mem_filter.mp h1.1).2
  simp only [Bool.and_eq_true, Bool.not_eq_eq_eq_not, Bool.not_true,
    beq_eq_false_iff_ne, ne_eq] at h2
  exact hs ▸ h2.2

/-- C6 counterexample: for a group whose observed transitions are
sedentary → light and light → light, the matrix is NOT a square matrix
indexed by the four activity states with an all-NaN row for the absent
states: the crosstab row index is `[sedentary, light]`, the column index is
`[light]` (so the matrix is not even square), and `moderate`/`intense`
have no row at all. -/
theorem absent_state_row_omitted :
    ActivityLevel.moderate ∉ rowStates exBaselines exRowsC6 ∧
    ActivityLevel.intense ∉ rowStates exBaselines exRowsC6 ∧
    rowStates exBaselines exRowsC6
      = [ActivityLevel.sedentary, ActivityLevel.light] ∧
    colStates exBaselines exRowsC6 = [ActivityLevel.light] ∧
    (rowStates exBaselines exRowsC6).length
      ≠ (colStates exBaselines exRowsC6).length := by
  refine ⟨?_, ?_, ?_, ?_, ?_⟩
  all_goals
    simp only [rowStates, colStates, rowTotal, colTotal, observableLevels,
      exPairsC6_eq]
    decide

/-- C6 amended: the transition matrix is indexed by the observed states
only — a state is in the crosstab row (resp. column) index exactly when it
has at least one outgoing (resp. incoming) counted transition, and a state
with no outgoing transitions is omitted from the rows entirely rather than
yielding an all-NaN row. -/
theorem transition_matrix_index_is_observed (baselines : List (ℕ × Baseline))
    (rows : List BioRow) :
    (∀ s, s ∈ rowStates baselines rows ↔ 0 < rowTotal baselines rows s) ∧
    (∀ t, t ∈ colStates baselines rows ↔ 0 < colTotal baselines rows t) ∧
    (∀ s, rowTotal baselines rows s = 0 → s ∉ rowStates baselines rows) := by
  have hrow : ∀ s, s ∈ rowStates baselines rows ↔
      0 < rowTotal baselines rows s := by
    intro s
    constructor
    · intro hs
      have := (List.mem_filter.mp hs).2
      simpa using this
    · intro hs
      refine List.mem_filter.mpr ⟨?_, by simpa using hs⟩
      have hne := rowTotal_pos_ne_unknown baselines rows s hs
      cases s <;> simp [observableLevels] at hne ⊢
  refine ⟨hrow, ?_, ?_⟩
  · intro t
    constructor
    · intro ht
      have := (List.mem_filter.mp ht).2
      simpa using this
    · intro ht
      refine List.mem_filter.mpr ⟨?_, by simpa using ht⟩
      have hne := colTotal_pos_ne_unknown baselines rows t ht
      cases t <;> simp [observableLevels] at hne ⊢
  · intro s h0 hmem
    have := (hrow s).mp hmem
    omega

/-- Witness for the amended C6: in the C4 example group, `intense` has no
outgoing transition and accordingly is not in the crosstab row index. -/
theorem transition_matrix_index_is_observed_witness :
    rowTotal exBaselines exRowsC4 ActivityLevel.intense = 0 ∧
    ActivityLevel.intense ∉ rowStates exBaselines exRowsC4 := by
  have h0 : rowTotal exBaselines exRowsC4 ActivityLevel.intense = 0 := by
    simp only [rowTotal, exPairsC4_eq]; decide
  exact ⟨h0, (transition_matrix_index_is_observed exBaselines exRowsC4).2.2
    ActivityLevel.intense h0⟩

theorem exRecovery_eq : find_recovery_end exPeakSeries 100 = some 3 := by
  norm_num [find_recovery_end, recoveryThreshold, listMean, exPeakSeries,
    List.filter]

theorem exRecoverySpec_eq :
    findRecoveryEndSpec exBeforePeak 100 exAfterPeak = some 5 := by
  norm_num [findRecoveryEndSpec, listMean, exBeforePeak, exAfterPeak,
    List.filter]

/-- C7 counterexample: for the series 0, 0, 100 (peak), 30, 30, 15 at times
0–5, the code's recovery rule (mean over the slice from the peak on:
baseline 43.75, threshold 55) fires at time 3, while the claimed rule
("within 20% of (peak − pre-peak baseline mean) above that baseline":
baseline 0, threshold 20) first fires at time 5.  The code does not use a
pre-peak baseline. -/
theorem recovery_time_not_from_pre_peak_baseline :
    find_recovery_end exPeakSeries 100 = some 3 ∧
    findRecoveryEndSpec exBeforePeak 100 exAfterPeak = some 5 ∧
    find_recovery_end exPeakSeries 100
      ≠ findRecoveryEndSpec exBeforePeak 100 exAfterPeak := by
  refine ⟨exRecovery_eq, exRecoverySpec_eq, ?_⟩
  rw [exRecovery_eq, exRecoverySpec_eq]
  simp

/-- C7 amended: `recovery_time` is determined by the first timestamp at or
after the peak at which stress returns to within 20% of (peak value − the
mean of the series from the peak on) above that mean; when no row of the
slice qualifies the result is null; null recoveries are excluded from the
recovery statistics (appending a null event changes nothing) rather than
coerced to zero; and a defined recovery time is never before the peak. -/
theorem recovery_semantics (data : List StressRow) (peakValue peakTime : ℚ)
    (hall : ∀ r ∈ data, peakTime ≤ r.time) :
    (∀ t, find_recovery_end data peakValue = some t → peakTime ≤ t) ∧
    (find_recovery_end data peakValue = none ↔
      ∀ r ∈ data, ¬(r.stress ≤ recoveryThreshold data peakValue)) ∧
    (∀ recoveries : List (Option ℚ),
      validRecoveries (recoveries ++ [none]) = validRecoveries recoveries) := by
  refine ⟨?_, ?_, ?_⟩
  · intro t ht
    unfold find_recovery_end at ht
    cases hf : data.filter
        (fun r => decide (r.stress ≤ recoveryThreshold data peakValue)) with
    | nil => rw [hf] at ht; exact absurd ht (by simp)
    | cons r rest =>
      rw [hf] at ht
      simp only [Option.some.injEq] at ht
      have hr : r ∈ data := by
        have : r ∈ data.filter
            (fun r => decide (r.stress ≤ recoveryThreshold data peakValue)) := by
          rw [hf]; exact List.mem_cons_self r rest
        exact List.mem_of_mem_filter this
      exact ht ▸ hall r hr
  · unfold find_recovery_end
    cases hf : data.filter
        (fun r => decide (r.stress ≤ recoveryThreshold data peakValue)) with
    | nil =>
      simp only [true_iff]
      have := List.filter_eq_nil_iff.mp hf
      intro r hr
      have h := this r hr
      simpa using h
    | cons r rest =>
      simp only [reduceCtorEq, false_iff, not_forall]
      have : r ∈ data.filter
          (fun r => decide (r.stress ≤ recoveryThreshold data peakValue)) := by
        rw [hf]; exact List.mem_cons_self r rest
      have hmem := List.mem_filter.mp this
      refine ⟨r, hmem.1, ?_⟩
      have := hmem.2
      simp only [decide_eq_true_eq] at this
      simp [this]
  · intro recoveries
    unfold validRecoveries
    simp

/-- Witness for the amended C7 at the concrete post-peak slice: the found
recovery time 3 is at or after the peak time 2, and appending a
null-recovery event leaves the valid-recovery list unchanged. -/
theorem recovery_semantics_witness :
    (2 : ℚ) ≤ 3 ∧
    validRecoveries ([some 4] ++ [none]) = validRecoveries [some 4] := by
  have h := recovery_semantics exPeakSeries 100 2 (by
    intro r hr
    fin_cases hr <;> norm_num [exPeakSeries])
  exact ⟨h.1 3 exRecovery_eq, h.2.2 [some 4]⟩

theorem blockResultFor_timeBlock (kruskal : List (List ℚ) → ℚ × ℚ)
    (rows : List StatRow) (b : ℕ) :
    (blockResultFor kruskal rows b).timeBlock = b := by
  unfold blockResultFor
  split <;> rfl

theorem blockResultFor_insufficient (kruskal : List (List ℚ) → ℚ × ℚ)
    (rows : List StatRow) (b : ℕ) (h : sufficientData rows b = false) :
    blockResultFor kruskal rows b = ⟨b, none, none, none⟩ := by
  unfold blockResultFor
  rw [if_neg (by simp [h])]

/-- C8: `run_time_comparisons` emits one result per sorted unique time
block — the time axis is never shortened — and every block for which some
group has fewer than 5 distinct days of data carries an undefined (`NaN`,
here `none`) statistic, p-value and effect size, for any Kruskal–Wallis
implementation. -/
theorem insufficient_blocks_marked_undefined
    (kruskal : List (List ℚ) → ℚ × ℚ) (rows : List StatRow) :
    ((run_time_comparisons kruskal rows).map (fun res => res.timeBlock)
        = uniqueBlocks rows) ∧
    (∀ res ∈ run_time_comparisons kruskal rows,
      sufficientData rows res.timeBlock = false →
        res.hStatistic = none ∧ res.pValue = none ∧ res.effectSize = none) := by
  constructor
  · unfold run_time_comparisons
    rw [List.map_map]
    have hfun : (fun res => BlockResult.timeBlock res) ∘ blockResultFor kruskal rows
        = fun b => b := by
      funext b
      exact blockResultFor_timeBlock kruskal rows b
    rw [hfun]
    simp
  · intro res hres hins
    obtain ⟨b, _, hfb⟩ := List.mem_map.mp hres
    rw [← hfb] at hins ⊢
    rw [blockResultFor_timeBlock] at hins
    simp [blockResultFor_insufficient kruskal rows b hins]

/-- Witness for C8: in the two-group frame with a single day of data, block
0 is insufficient, is kept in the time axis, and its result is the all-NaN
record. -/
theorem insufficient_blocks_marked_undefined_witness :
    (⟨0, none, none, none⟩ : BlockResult)
        ∈ run_time_comparisons (fun _ => ((0 : ℚ), (0 : ℚ))) exStatRows ∧
    sufficientData exStatRows 0 = false ∧
    ((⟨0, none, none, none⟩ : BlockResult).hStatistic = none ∧
      (⟨0, none, none, none⟩ : BlockResult).pValue = none ∧
      (⟨0, none, none, none⟩ : BlockResult).effectSize = none) := by
  have hrun : run_time_comparisons (fun _ => ((0 : ℚ), (0 : ℚ))) exStatRows
      = [⟨0, none, none, none⟩] := by decide
  have hmem : (⟨0, none, none, none⟩ : BlockResult)
      ∈ run_time_comparisons (fun _ => ((0 : ℚ), (0 : ℚ))) exStatRows := by
    rw [hrun]
    exact List.mem_singleton.mpr rfl
  refine ⟨hmem, by decide,
    (insufficient_blocks_marked_undefined (fun _ => ((0 : ℚ), (0 : ℚ)))
      exStatRows).2 _ hmem (by decide)⟩

/-- C9: a pair is reported significant only when the omnibus p-value is
below 0.05 and the pairwise p-value is below the Bonferroni-corrected
threshold `0.05 / C(k, 2)`; and for `k ≥ 2` groups the set of pairs
reported under the corrected threshold is a subset of what the uncorrected
0.05 threshold would report — for any test implementations. -/
theorem bonferroni_reports_subset (mw : List ℚ → List ℚ → ℚ × ℚ)
    (blockRows : List StatRow) (groups : List ℕ) (omnibusP : ℚ)
    (hk : 2 ≤ groups.length) :
    (∀ p ∈ significantDiffs mw blockRows groups omnibusP
        (bonferroniThreshold groups.length),
      omnibusP < 5 / 100 ∧
        pairPValue mw blockRows p < bonferroniThreshold groups.length) ∧
    (∀ p ∈ significantDiffs mw blockRows groups omnibusP
        (bonferroniThreshold groups.length),
      p ∈ significantDiffs mw blockRows groups omnibusP (5 / 100)) := by
  have hthr : bonferroniThreshold groups.length ≤ 5 / 100 := by
    unfold bonferroniThreshold
    have h2 : (2 : ℚ) ≤ (groups.length : ℚ) := by exact_mod_cast hk
    have hC : 1 ≤ (groups.length : ℚ) * ((groups.length : ℚ) - 1) / 2 := by
      nlinarith
    exact div_le_self (by norm_num) hC
  constructor
  · intro p hp
    unfold significantDiffs at hp
    by_cases ho : omnibusP < 5 / 100
    · rw [if_pos ho] at hp
      have hcond := (List.mem_filter.mp hp).2
      simp only [Bool.and_eq_true, decide_eq_true_eq] at hcond
      exact ⟨ho, hcond.2⟩
    · rw [if_neg ho] at hp
      simp at hp
  · intro p hp
    unfold significantDiffs at hp ⊢
    by_cases ho : omnibusP < 5 / 100
    · rw [if_pos ho] at hp ⊢
      have hm := List.mem_filter.mp hp
      refine List.mem_filter.mpr ⟨hm.1, ?_⟩
      have hcond := hm.2
      simp only [Bool.and_eq_true, decide_eq_true_eq] at hcond ⊢
      exact ⟨hcond.1, lt_of_lt_of_le hcond.2 hthr⟩
    · rw [if_neg ho] at hp
      simp at hp

/-- Witness for C9: two groups with five samples each, a pairwise test
returning p = 0.01 and omnibus p = 0.01: the pair (0, 1) is reported under
the corrected threshold and is also in the uncorrected report. -/
theorem bonferroni_reports_subset_witness :
    (0, 1) ∈ significantDiffs (fun _ _ => ((0 : ℚ), 1 / 100)) exStatRows9
        [0, 1] (1 / 100) (bonferroniThreshold 2) ∧
    (0, 1) ∈ significantDiffs (fun _ _ => ((0 : ℚ), 1 / 100)) exStatRows9
        [0, 1] (1 / 100) (5 / 100) := by
  have hlen0 : (groupStress exStatRows9 0).length = 5 := by
    norm_num [groupStress, exStatRows9, List.filter_cons, List.filter_nil]
  have hlen1 : (groupStress exStatRows9 1).length = 5 := by
    norm_num [groupStress, exStatRows9, List.filter_cons, List.filter_nil]
  have hthr2 : bonferroniThreshold 2 = 5 / 100 := by
    norm_num [bonferroniThreshold]
  have hmem : (0, 1) ∈ significantDiffs (fun _ _ => ((0 : ℚ), 1 / 100))
      exStatRows9 [0, 1] (1 / 100) (bonferroniThreshold 2) := by
    unfold significantDiffs
    rw [if_pos (by norm_num : (1 : ℚ) / 100 < 5 / 100)]
    refine List.mem_filter.mpr ⟨by decide, ?_⟩
    simp only [Bool.and_eq_true, decide_eq_true_eq]
    refine ⟨⟨?_, ?_⟩, ?_⟩
    · show 5 ≤ (groupStress exStatRows9 0).length
      exact hlen0.ge
    · show 5 ≤ (groupStress exStatRows9 1).length
      exact hlen1.ge
    · show pairPValue (fun _ _ => ((0 : ℚ), 1 / 100)) exStatRows9 (0, 1)
        < bonferroniThreshold ([0, 1] : List ℕ).length
      have hpv : pairPValue (fun _ _ => ((0 : ℚ), 1 / 100)) exStatRows9 (0, 1)
          = 1 / 100 := rfl
      rw [hpv]
      show (1 : ℚ) / 100 < bonferroniThreshold 2
      rw [hthr2]
      norm_num
  exact ⟨hmem,
    (bonferroni_reports_subset (fun _ _ => ((0 : ℚ), 1 / 100)) exStatRows9
      [0, 1] (1 / 100) (by norm_num)).2 (0, 1) hmem⟩

theorem detectAux_append (stressDrop thresholdDuration : ℚ)
    (allRows : List StressRow) (st : Option ℚ) (xs ys : List TRow) :
    detectAux stressDrop thresholdDuration allRows st (xs ++ ys)
      = detectAux stressDrop thresholdDuration allRows st xs
        ++ detectAux stressDrop thresholdDuration allRows
            (runBreakState stressDrop st xs) ys := by
  induction xs generalizing st with
  | nil => simp [detectAux, runBreakState]
  | cons r rs ih =>
    simp [detectAux, runBreakState, List.foldl_cons, ih, List.append_assoc]

theorem detectAux_no_close (stressDrop thresholdDuration : ℚ)
    (allRows : List StressRow) (s : ℚ) (l : List TRow)
    (h : ∀ x ∈ l, risesAbove stressDrop x.drop = false) :
    detectAux stressDrop thresholdDuration allRows (some s) l = [] := by
  induction l with
  | nil => rfl
  | cons x xs ih =>
    have hx := h x (List.mem_cons_self x xs)
    simp [detectAux, breakStepOut, breakStepState, hx,
      ih (fun y hy => h y (List.mem_cons_of_mem x hy))]

/-- C10: a break segment that opens (smoothed difference below
−stress_drop) but is never followed by a row whose smoothed difference
exceeds +stress_drop produces no Break Event, regardless of its wall-clock
duration: the run over the rows up to and including the opening plus the
non-closing tail equals the run over the earlier rows alone. -/
theorem trailing_open_segment_discarded (stressDrop thresholdDuration : ℚ)
    (allRows : List StressRow) (pre : List TRow) (r : TRow)
    (suffix : List TRow)
    (hstate : runBreakState stressDrop none pre = none)
    (hopen : dropsBelow stressDrop r.drop = true)
    (hnoclose : ∀ x ∈ suffix, risesAbove stressDrop x.drop = false) :
    detectAux stressDrop thresholdDuration allRows none (pre ++ r :: suffix)
      = detectAux stressDrop thresholdDuration allRows none pre := by
  rw [detectAux_append, hstate]
  have htail : detectAux stressDrop thresholdDuration allRows none
      (r :: suffix) = [] := by
    have hstep : breakStepState stressDrop none r = some r.time := by
      simp [breakStepState, hopen]
    simp only [detectAux, breakStepOut, hstep]
    rw [detectAux_no_close stressDrop thresholdDuration allRows r.time suffix
      hnoclose]
    rfl
  rw [htail, List.append_nil]

/-- Witness for C10: with thresholds stress_drop = 20 and
threshold_duration = 10, a drop of −25 at time 0 followed by 200 minutes of
rows that never rise above +20 produces no break events at all. -/
theorem trailing_open_segment_discarded_witness :
    runBreakState 20 none [] = none ∧
    dropsBelow 20 (some (-25)) = true ∧
    detectAux 20 10 [] none
        [⟨0, some (-25)⟩, ⟨100, some 0⟩, ⟨200, some (-30)⟩] = [] := by
  have h := trailing_open_segment_discarded 20 10 [] []
    ⟨0, some (-25)⟩ [⟨100, some 0⟩, ⟨200, some (-30)⟩] rfl
    (by norm_num [dropsBelow])
    (by
      intro x hx
      fin_cases hx <;> norm_num [risesAbove])
  refine ⟨rfl, by norm_num [dropsBelow], ?_⟩
  simpa [detectAux] using h

end PRBrainfit
